import Mathlib

/-!
Verification of the doom-wled repository: a raycasting FPS (`wled_game.py`)
that streams frames to a 16x8 WLED LED matrix, plus the manual two-panel
serpentine index mapper from `calibrate_wled.py`.

Python floats are modelled as real numbers, Python ints as integers.
`int(r)` (truncation toward zero) is `pytrunc`.  Python list indexing
(including negative-index wraparound and out-of-range errors) is `pyIdx`.
Fallible code (list indexing that can raise) is modelled with `Option`.
-/

namespace DoomWled

/-- WLED matrix width, from `wled_game.py`. -/
def MATRIX_WIDTH : ℕ := 16

/-- WLED matrix height, from `wled_game.py`. -/
def MATRIX_HEIGHT : ℕ := 8

/-- Game frame width, from `wled_game.py`. -/
def GAME_WIDTH : ℕ := 320

/-- Game frame height, from `wled_game.py`. -/
def GAME_HEIGHT : ℕ := 200

namespace WLEDStreamer

/-- Method `WLEDStreamer.rgb_to_wled_index` from `wled_game.py`:
`return y * MATRIX_WIDTH + x` (native 2D row-major mode). -/
def rgb_to_wled_index (x y : ℕ) : ℕ := y * MATRIX_WIDTH + x

end WLEDStreamer

namespace Calibrate

/-- Function `rgb_to_wled_index` from `calibrate_wled.py`: manual two-panel
serpentine mapper (panel 0 top-left serpentine, panel 1 bottom-right
serpentine with offset 64).  The calibration tool only calls it with
`0 ≤ x < 16` and `0 ≤ y < 8`, where natural subtraction agrees with
Python integer subtraction. -/
def rgb_to_wled_index (x y : ℕ) : ℕ :=
  if x < 8 then
    if y % 2 = 0 then y * 8 + x
    else y * 8 + (7 - x)
  else
    let px := x - 8
    let py_from_bottom := 7 - y
    if py_from_bottom % 2 = 0 then 64 + (py_from_bottom * 8 + (7 - px))
    else 64 + (py_from_bottom * 8 + px)

end Calibrate

/-- A downsampled small frame: `frame_data[y, x]` is an RGB triple. -/
def Frame : Type := ℕ → ℕ → ℕ × ℕ × ℕ

/-- The `ordered_leds` construction inside `send_frame_to_wled`
(`wled_game.py`): start from `[None] * (MATRIX_WIDTH * MATRIX_HEIGHT)` and,
for `y in range(MATRIX_HEIGHT)`, `x in range(MATRIX_WIDTH)`, write
`[int(pixel[0]), int(pixel[1]), int(pixel[2])]` at index `idx x y`.
The index function is a parameter (in the source it is the bound method
`self.rgb_to_wled_index`). -/
def build_leds (idx : ℕ → ℕ → ℕ) (frame : Frame) : List (Option (List ℕ)) :=
  (List.range MATRIX_HEIGHT).foldl
    (fun acc y =>
      (List.range MATRIX_WIDTH).foldl
        (fun acc2 x =>
          acc2.set (idx x y)
            (some [(frame y x).1, (frame y x).2.1, (frame y x).2.2]))
        acc)
    (List.replicate (MATRIX_WIDTH * MATRIX_HEIGHT) (none : Option (List ℕ)))

/-- The LED array actually built by `WLEDStreamer.send_frame_to_wled`,
using the streamer's own `rgb_to_wled_index`. -/
def ordered_leds (frame : Frame) : List (Option (List ℕ)) :=
  build_leds WLEDStreamer.rgb_to_wled_index frame

/-- Outcome of the HTTP POST inside `send_frame_to_wled`: either a response
with a status code, or an exception raised during the attempt. -/
inductive HttpOutcome : Type
  | response (status : ℤ)
  | timeout
  | connectionError
  | otherException
deriving DecidableEq

/-- Boolean result of `WLEDStreamer.send_frame_to_wled` (`wled_game.py`):
the whole body is wrapped in `try: ... return response.status_code == 200
except Exception: return False`, so any exception produces `false` and a
response produces `status == 200`. -/
def send_frame_to_wled (_frame : Frame) (outcome : HttpOutcome) : Bool :=
  match outcome with
  | .response s => decide (s = 200)
  | .timeout => false
  | .connectionError => false
  | .otherException => false

/-- The solid-red small frame: every pixel is `(255, 0, 0)`. -/
def redFrame : Frame := fun _ _ => (255, 0, 0)

/-- A deliberately partial (misconfigured) index mapper sending every
coordinate to device index 0; used to exercise the unwritten-index case of
`build_leds`. -/
def constZeroIdx : ℕ → ℕ → ℕ := fun _ _ => 0

/-- The coordinate pairs (x, y) visited by the double loop of
`send_frame_to_wled`, in iteration order. -/
def coordPairs : List (ℕ × ℕ) :=
  (List.range MATRIX_HEIGHT).flatMap
    (fun y => (List.range MATRIX_WIDTH).map (fun x => (x, y)))

/-- Python `int(r)` on a float: truncation toward zero. -/
noncomputable def pytrunc (r : ℝ) : ℤ := if 0 ≤ r then ⌊r⌋ else ⌈r⌉

/-- Python list indexing `l[i]`: non-negative indices address from the
front, negative indices at least `-len(l)` wrap from the back, anything
else raises IndexError (modelled as `none`). -/
def pyIdx {α : Type} (l : List α) (i : ℤ) : Option α :=
  if 0 ≤ i then l[i.toNat]?
  else if -(l.length : ℤ) ≤ i then l[(i + l.length).toNat]?
  else none

/-- The double list access `self.map[row][col]` with Python indexing
semantics. -/
def mapCell (m : List (List ℕ)) (row col : ℤ) : Option ℕ :=
  (pyIdx m row).bind fun r => pyIdx r col

/-- The map built in `RaycastGame.__init__` (1 = wall, 0 = empty). -/
def gameMap : List (List ℕ) :=
  [[1,1,1,1,1,1,1,1],
   [1,0,0,0,0,0,0,1],
   [1,0,1,0,0,1,0,1],
   [1,0,0,0,0,0,0,1],
   [1,0,1,0,0,1,0,1],
   [1,0,0,0,0,0,0,1],
   [1,0,0,1,1,0,0,1],
   [1,1,1,1,1,1,1,1]]

/-- The mutable fields of `RaycastGame` touched by `cast_ray`,
`handle_input`, `shoot` and `update_timers`.  `bullet_impacts` is the list
of `[impact_x, timer]` pairs. -/
structure GameState where
  player_x : ℝ
  player_y : ℝ
  player_angle : ℝ
  shooting : Bool
  muzzle_flash_timer : ℤ
  shot_cooldown : ℤ
  bullet_impacts : List (ℤ × ℤ)

/-- The state set up by `RaycastGame.__init__`. -/
noncomputable def initState : GameState :=
  { player_x := 3.5, player_y := 3.5, player_angle := 0, shooting := false,
    muzzle_flash_timer := 0, shot_cooldown := 0, bullet_impacts := [] }

/-- Constant `self.move_speed` from `__init__`. -/
noncomputable def move_speed : ℝ := 0.05

/-- Constant `self.rot_speed` from `__init__`. -/
noncomputable def rot_speed : ℝ := 0.05

/-- The marching loop of `RaycastGame.cast_ray`, indexed by the remaining
step budget (`for _ in range(200)`).  Each iteration advances the ray by
`(dx, dy)`, truncates to cell coordinates, and on an in-bounds wall cell
returns the Euclidean distance from the origin together with
`(map_x + map_y) % 2`; an exhausted budget yields the sentinel `(100, 0)`. -/
noncomputable def castAux (m : List (List ℕ)) (px py dx dy : ℝ) :
    ℕ → ℝ → ℝ → ℝ × ℤ
  | 0, _, _ => (100, 0)
  | fuel + 1, rx, ry =>
    if 0 ≤ pytrunc (ry + dy) ∧ pytrunc (ry + dy) < (m.length : ℤ) ∧
       0 ≤ pytrunc (rx + dx) ∧ pytrunc (rx + dx) < ((m.headD []).length : ℤ) ∧
       (m.getD (pytrunc (ry + dy)).toNat []).getD (pytrunc (rx + dx)).toNat 0 = 1 then
      (Real.sqrt ((rx + dx - px) ^ 2 + (ry + dy - py) ^ 2),
       (pytrunc (rx + dx) + pytrunc (ry + dy)) % 2)
    else
      castAux m px py dx dy fuel (rx + dx) (ry + dy)

/-- Method `RaycastGame.cast_ray`: march the step vector
`(cos(angle) * 0.02, sin(angle) * 0.02)` from the player position for at
most 200 steps. -/
noncomputable def cast_ray (m : List (List ℕ)) (px py angle : ℝ) : ℝ × ℤ :=
  castAux m px py (Real.cos angle * 0.02) (Real.sin angle * 0.02) 200 px py

/-- Step k of the march (k ≥ 1) lands in an in-bounds wall cell.  The
position after k exact-arithmetic steps is `(px + k*dx, py + k*dy)`. -/
def hitAt (m : List (List ℕ)) (px py dx dy : ℝ) (k : ℕ) : Prop :=
  0 ≤ pytrunc (py + k * dy) ∧ pytrunc (py + k * dy) < (m.length : ℤ) ∧
  0 ≤ pytrunc (px + k * dx) ∧ pytrunc (px + k * dx) < ((m.headD []).length : ℤ) ∧
  (m.getD (pytrunc (py + k * dy)).toNat []).getD (pytrunc (px + k * dx)).toNat 0 = 1

/-- Snapshot of the keyboard state polled by `handle_input`. -/
structure Keys where
  left : Bool
  right : Bool
  up : Bool
  down : Bool
  a : Bool
  d : Bool
  space : Bool

/-- No key pressed. -/
def noKeys : Keys :=
  { left := false, right := false, up := false, down := false,
    a := false, d := false, space := false }

/-- Only the forward key pressed. -/
def upOnly : Keys := { noKeys with up := true }

/-- Only the backward key pressed. -/
def downOnly : Keys := { noKeys with down := true }

/-- Only the strafe-left key pressed. -/
def strafeLeftOnly : Keys := { noKeys with a := true }

/-- Only the strafe-right key pressed. -/
def strafeRightOnly : Keys := { noKeys with d := true }

/-- Only the fire key pressed. -/
def fireOnly : Keys := { noKeys with space := true }

/-- One movement block of `handle_input`: commit the proposed position
`(new_x, new_y)` exactly when `self.map[int(new_y)][int(new_x)] == 0`;
a failing Python list access is an exception (`none`). -/
noncomputable def tryMove (m : List (List ℕ)) (s : GameState) (new_x new_y : ℝ) :
    Option GameState :=
  match mapCell m (pytrunc new_y) (pytrunc new_x) with
  | none => none
  | some v => some (if v = 0 then { s with player_x := new_x, player_y := new_y } else s)

/-- Method `RaycastGame.shoot`: set the shooting flag, muzzle flash (5) and
cooldown (10), cast a ray along the current heading, and on distance < 10
append a `[GAME_WIDTH // 2, 10]` impact. -/
noncomputable def shoot (m : List (List ℕ)) (s : GameState) : GameState :=
  let s1 := { s with shooting := true, muzzle_flash_timer := 5, shot_cooldown := 10 }
  if (cast_ray m s1.player_x s1.player_y s1.player_angle).1 < 10 then
    { s1 with bullet_impacts := s1.bullet_impacts ++ [(((GAME_WIDTH : ℤ) / 2), 10)] }
  else s1

/-- Method `RaycastGame.handle_input`: rotation, the four conditional movement
blocks (each committed only on an empty destination cell), then the
cooldown-gated call to `shoot`. -/
noncomputable def handle_input (m : List (List ℕ)) (keys : Keys) (s0 : GameState) :
    Option GameState :=
  let s1 := if keys.left then { s0 with player_angle := s0.player_angle - rot_speed } else s0
  let s2 := if keys.right then { s1 with player_angle := s1.player_angle + rot_speed } else s1
  (if keys.up then
      tryMove m s2 (s2.player_x + Real.cos s2.player_angle * move_speed)
        (s2.player_y + Real.sin s2.player_angle * move_speed)
    else some s2).bind fun s3 =>
  (if keys.down then
      tryMove m s3 (s3.player_x - Real.cos s3.player_angle * move_speed)
        (s3.player_y - Real.sin s3.player_angle * move_speed)
    else some s3).bind fun s4 =>
  (if keys.a then
      tryMove m s4 (s4.player_x + Real.cos (s4.player_angle - Real.pi / 2) * move_speed)
        (s4.player_y + Real.sin (s4.player_angle - Real.pi / 2) * move_speed)
    else some s4).bind fun s5 =>
  (if keys.d then
      tryMove m s5 (s5.player_x + Real.cos (s5.player_angle + Real.pi / 2) * move_speed)
        (s5.player_y + Real.sin (s5.player_angle + Real.pi / 2) * move_speed)
    else some s5).bind fun s6 =>
  some (if keys.space ∧ s6.shot_cooldown = 0 then shoot m s6 else s6)

/-- Method `RaycastGame.update_timers`: decrement the positive muzzle flash and
cooldown timers, decrement every positive impact timer, then drop the
impacts whose timer is not strictly positive. -/
def update_timers (s : GameState) : GameState :=
  let s1 := if s.muzzle_flash_timer > 0 then
      { s with muzzle_flash_timer := s.muzzle_flash_timer - 1 } else s
  let s2 := if s1.shot_cooldown > 0 then
      { s1 with shot_cooldown := s1.shot_cooldown - 1 } else s1
  let imps := (s2.bullet_impacts.map (fun p => if p.2 > 0 then (p.1, p.2 - 1) else p)).filter
    (fun p => p.2 > 0)
  { s2 with bullet_impacts := imps }

/-- One iteration of the main loop as far as game state is concerned:
`handle_input` followed by `update_timers`. -/
noncomputable def tick (m : List (List ℕ)) (keys : Keys) (s : GameState) :
    Option GameState :=
  (handle_input m keys s).map update_timers

/-- The game states reachable from `__init__` under arbitrary key
snapshots: each loop iteration runs `handle_input` (when it does not raise)
and `update_timers`. -/
inductive Reach : GameState → Prop where
  | init : Reach initState
  | input (keys : Keys) {s s' : GameState} :
      Reach s → handle_input gameMap keys s = some s' → Reach s'
  | timers {s : GameState} : Reach s → Reach (update_timers s)

/-- The player's truncated cell reads as EMPTY (value 0) under Python
indexing. -/
def InEmptyCell (m : List (List ℕ)) (s : GameState) : Prop :=
  mapCell m (pytrunc s.player_y) (pytrunc s.player_x) = some 0

/-- Every bullet impact has a remaining lifetime between 1 and 10. -/
def ImpOK (s : GameState) : Prop :=
  ∀ p ∈ s.bullet_impacts, 1 ≤ p.2 ∧ p.2 ≤ 10

/-- Constant `fov = np.pi / 3` from `RaycastGame.render`. -/
noncomputable def fov : ℝ := Real.pi / 3

/-- The per-column ray angle of `RaycastGame.render`:
`player_angle - fov/2 + (i / num_rays) * fov` with `num_rays = GAME_WIDTH`. -/
noncomputable def ray_angle (player_angle : ℝ) (i : ℕ) : ℝ :=
  player_angle - fov / 2 + ((i : ℝ) / (GAME_WIDTH : ℝ)) * fov

/-- The fisheye correction of `RaycastGame.render`:
`dist *= np.cos(ray_angle - player_angle)`. -/
noncomputable def fisheye_corrected (player_angle ra dist : ℝ) : ℝ :=
  dist * Real.cos (ra - player_angle)

end DoomWled

namespace DoomWled

set_option maxRecDepth 100000

lemma double_foldl {α : Type} (f : List α → ℕ × ℕ → List α) (ys xs : List ℕ)
    (init : List α) :
    ys.foldl (fun acc y => xs.foldl (fun a x => f a (x, y)) acc) init =
      (ys.flatMap (fun y => xs.map (fun x => (x, y)))).foldl f init := by
  induction ys generalizing init with
  | nil => rfl
  | cons y ys ih =>
      simp only [List.flatMap_cons, List.foldl_append, List.foldl_map, List.foldl_cons]
      exact ih _

lemma build_leds_eq_foldl (idx : ℕ → ℕ → ℕ) (frame : Frame) :
    build_leds idx frame =
      coordPairs.foldl
        (fun a p => a.set (idx p.1 p.2)
          (some [(frame p.2 p.1).1, (frame p.2 p.1).2.1, (frame p.2 p.1).2.2]))
        (List.replicate 128 (none : Option (List ℕ))) := by
  unfold build_leds coordPairs
  exact double_foldl
    (fun a p => a.set (idx p.1 p.2)
      (some [(frame p.2 p.1).1, (frame p.2 p.1).2.1, (frame p.2 p.1).2.2]))
    (List.range MATRIX_HEIGHT) (List.range MATRIX_WIDTH)
    (List.replicate (MATRIX_WIDTH * MATRIX_HEIGHT) (none : Option (List ℕ)))

lemma foldl_set_length {α : Type} (g : ℕ × ℕ → ℕ) (v : ℕ × ℕ → α)
    (ps : List (ℕ × ℕ)) (acc : List α) :
    (ps.foldl (fun a p => a.set (g p) (v p)) acc).length = acc.length := by
  induction ps generalizing acc with
  | nil => rfl
  | cons p ps ih => simp [List.foldl_cons, ih]

lemma foldl_set_getElem? {α : Type} (g : ℕ × ℕ → ℕ) (v : ℕ × ℕ → α)
    (ps : List (ℕ × ℕ)) (acc : List α) (i : ℕ) :
    (ps.foldl (fun a p => a.set (g p) (v p)) acc)[i]? =
      match ps.reverse.find? (fun p => g p == i) with
      | some p => if i < acc.length then some (v p) else none
      | none => acc[i]? := by
  induction ps generalizing acc with
  | nil => rfl
  | cons p ps ih =>
      simp only [List.foldl_cons, List.reverse_cons, List.find?_append]
      rw [ih]
      cases hf : ps.reverse.find? (fun p => g p == i) with
      | some q => simp [List.length_set]
      | none =>
          simp only [Option.none_or]
          by_cases hg : g p = i
          · subst hg
            simp [List.find?_singleton, List.getElem?_set]
          · have hb : (g p == i) = false := by simp [hg]
            simp [List.find?_singleton, hb, List.getElem?_set_ne hg]

lemma find?_unique {g : ℕ × ℕ → ℕ} {i : ℕ} {l : List (ℕ × ℕ)} {q : ℕ × ℕ}
    (hmem : q ∈ l) (huniq : ∀ r ∈ l, g r = i ↔ r = q) :
    l.find? (fun p => g p == i) = some q := by
  induction l with
  | nil => cases hmem
  | cons a l ih =>
      by_cases hpa : g a = i
      · have ha : a = q := (huniq a (List.mem_cons_self a l)).mp hpa
        subst ha
        simp [List.find?_cons, hpa]
      · have haq : a ≠ q := fun h => hpa ((huniq a (List.mem_cons_self a l)).mpr h)
        have hmem' : q ∈ l := by
          rcases List.mem_cons.mp hmem with h | h
          · exact absurd h.symm haq
          · exact h
        have hb : (g a == i) = false := by simp [hpa]
        simp only [List.find?_cons, hb]
        exact ih hmem' (fun r hr => huniq r (List.mem_cons_of_mem _ hr))

lemma mem_coordPairs {p : ℕ × ℕ} : p ∈ coordPairs ↔ p.1 < 16 ∧ p.2 < 8 := by
  constructor
  · intro h
    simp only [coordPairs, List.mem_flatMap, List.mem_map, List.mem_range] at h
    obtain ⟨y, hy, x, hx, rfl⟩ := h
    exact ⟨hx, hy⟩
  · intro ⟨h1, h2⟩
    simp only [coordPairs, List.mem_flatMap, List.mem_map, List.mem_range]
    exact ⟨p.2, h2, p.1, h1, rfl⟩

lemma ordered_leds_written (frame : Frame) (x y : ℕ) (hx : x < 16) (hy : y < 8) :
    (ordered_leds frame).getD (y * 16 + x) none =
      some [(frame y x).1, (frame y x).2.1, (frame y x).2.2] := by
  rw [ordered_leds, List.getD_eq_getElem?_getD, build_leds_eq_foldl, foldl_set_getElem?]
  have hfind : coordPairs.reverse.find?
      (fun p => WLEDStreamer.rgb_to_wled_index p.1 p.2 == (y * 16 + x)) = some (x, y) := by
    apply find?_unique
    · rw [List.mem_reverse, mem_coordPairs]; exact ⟨hx, hy⟩
    · intro r hr
      rw [List.mem_reverse, mem_coordPairs] at hr
      unfold WLEDStreamer.rgb_to_wled_index MATRIX_WIDTH
      constructor
      · intro h
        have : r.1 = x ∧ r.2 = y := by omega
        exact Prod.ext this.1 this.2
      · intro h; subst h; rfl
  rw [hfind]
  simp only [List.length_replicate]
  rw [if_pos (by omega)]
  rfl

lemma build_leds_unwritten (idx : ℕ → ℕ → ℕ) (frame : Frame) (i : ℕ) (hi : i < 128)
    (h : ∀ x, x < 16 → ∀ y, y < 8 → idx x y ≠ i) :
    (build_leds idx frame).getD i none = none := by
  rw [List.getD_eq_getElem?_getD, build_leds_eq_foldl, foldl_set_getElem?]
  have hfind : coordPairs.reverse.find? (fun p => idx p.1 p.2 == i) = none := by
    rw [List.find?_eq_none]
    intro p hp
    rw [List.mem_reverse, mem_coordPairs] at hp
    simp only [beq_iff_eq]
    exact h p.1 hp.1 p.2 hp.2
  rw [hfind, List.getElem?_replicate]
  simp [hi]

lemma build_leds_length (idx : ℕ → ℕ → ℕ) (frame : Frame) :
    (build_leds idx frame).length = 128 := by
  rw [build_leds_eq_foldl, foldl_set_length, List.length_replicate]

/-- C2: for every (x, y) with 0 ≤ x < 16 and 0 ≤ y < 8, both addressing
regimes return an index in [0, 128) and each is a bijection from the 128
coordinate pairs onto [0, 128): the image of the coordinate rectangle under
each mapper is exactly `Finset.range 128`, and each mapper is injective on
the rectangle. -/
theorem c2_both_mappers_bijective :
    ((Finset.range 16 ×ˢ Finset.range 8).image
        (fun p => WLEDStreamer.rgb_to_wled_index p.1 p.2) = Finset.range 128) ∧
    ((Finset.range 16 ×ˢ Finset.range 8).image
        (fun p => Calibrate.rgb_to_wled_index p.1 p.2) = Finset.range 128) ∧
    (∀ p ∈ Finset.range 16 ×ˢ Finset.range 8, ∀ q ∈ Finset.range 16 ×ˢ Finset.range 8,
      WLEDStreamer.rgb_to_wled_index p.1 p.2 = WLEDStreamer.rgb_to_wled_index q.1 q.2 →
        p = q) ∧
    (∀ p ∈ Finset.range 16 ×ˢ Finset.range 8, ∀ q ∈ Finset.range 16 ×ˢ Finset.range 8,
      Calibrate.rgb_to_wled_index p.1 p.2 = Calibrate.rgb_to_wled_index q.1 q.2 →
        p = q) := by
  refine ⟨by decide, by decide, by decide, by decide⟩

/-- Witness for C2: the injectivity conjuncts applied at the concrete
coordinate pairs (3, 2) and (3, 2). -/
theorem c2_both_mappers_bijective_witness :
    ((3, 2) : ℕ × ℕ) = (3, 2) :=
  c2_both_mappers_bijective.2.2.1 (3, 2) (by decide) (3, 2) (by decide) rfl

/-- C5: `send_frame_to_wled` never propagates an exception: it is a total
boolean-valued function of the transmission outcome, returning `true`
exactly when the response status code is 200 and `false` on a timeout,
connection error, or any other exception. -/
theorem c5_send_frame_swallows_exceptions (frame : Frame) (outcome : HttpOutcome) :
    (send_frame_to_wled frame outcome = true ↔ outcome = .response 200) ∧
    (send_frame_to_wled frame .timeout = false ∧
     send_frame_to_wled frame .connectionError = false ∧
     send_frame_to_wled frame .otherException = false) := by
  constructor
  · cases outcome with
    | response s =>
        simp only [send_frame_to_wled, decide_eq_true_eq]
        constructor
        · intro h; exact congrArg HttpOutcome.response h
        · intro h; cases h; rfl
    | timeout => simp [send_frame_to_wled]
    | connectionError => simp [send_frame_to_wled]
    | otherException => simp [send_frame_to_wled]
  · exact ⟨rfl, rfl, rfl⟩

/-- C4: for every small frame buffer, `send_frame_to_wled` builds an ordered
LED array of length exactly 128 in which, for every (x, y) with x < 16 and
y < 8, the entry at index y*16+x is the [r, g, b] triple of the frame pixel
at row y, column x; a solid-red frame produces [255, 0, 0] at every index. -/
theorem c4_ordered_leds_row_major (frame : Frame) :
    (ordered_leds frame).length = 128 ∧
    (∀ x y, x < 16 → y < 8 →
      (ordered_leds frame).getD (y * 16 + x) none =
        some [(frame y x).1, (frame y x).2.1, (frame y x).2.2]) ∧
    (∀ i, i < 128 → (ordered_leds redFrame).getD i none = some [255, 0, 0]) := by
  refine ⟨build_leds_length _ _, fun x y hx hy => ordered_leds_written frame x y hx hy,
    fun i hi => ?_⟩
  have hx : i % 16 < 16 := Nat.mod_lt _ (by norm_num)
  have hy : i / 16 < 8 := by omega
  have h := ordered_leds_written redFrame (i % 16) (i / 16) hx hy
  rw [show i / 16 * 16 + i % 16 = i by omega] at h
  exact h

/-- Witness for C4: applied at the solid-red frame and device index 0. -/
theorem c4_ordered_leds_row_major_witness :
    (ordered_leds redFrame).getD 0 none = some [255, 0, 0] :=
  (c4_ordered_leds_row_major redFrame).2.2 0 (by norm_num)

/-- C7 counterexample: in `send_frame_to_wled` the LED array is initialized
with `[None] * 128`, not with black triples, so a device index that is not
written during the iteration (here: index 1 under a misconfigured mapper
sending every coordinate to 0) holds `none` (serialized as `null`), not
`[0, 0, 0]`. -/
theorem c7_unwritten_not_black :
    (∀ x, x < 16 → ∀ y, y < 8 → constZeroIdx x y ≠ 1) ∧
    (build_leds constZeroIdx redFrame).getD 1 none ≠ some [0, 0, 0] := by
  constructor
  · intro x _ y _
    simp [constZeroIdx]
  · rw [build_leds_unwritten constZeroIdx redFrame 1 (by norm_num)
      (fun x _ y _ => by simp [constZeroIdx])]
    simp

/-- C7 (amended): every written index receives the looked-up pixel's color
triple; an index in [0, 128) not written during the iteration remains the
`None` placeholder (serialized as `null`), not black; and with the actual
native mapper of `send_frame_to_wled` every index in [0, 128) is written. -/
theorem c7_payload_entries (frame : Frame) :
    (∀ x y, x < 16 → y < 8 →
      (ordered_leds frame).getD (y * 16 + x) none =
        some [(frame y x).1, (frame y x).2.1, (frame y x).2.2]) ∧
    (∀ idx i, i < 128 → (∀ x, x < 16 → ∀ y, y < 8 → idx x y ≠ i) →
      (build_leds idx frame).getD i none = none) ∧
    (∀ i, i < 128 → ∃ x, x < 16 ∧ ∃ y, y < 8 ∧
      WLEDStreamer.rgb_to_wled_index x y = i) := by
  refine ⟨fun x y hx hy => ordered_leds_written frame x y hx hy,
    fun idx i hi h => build_leds_unwritten idx frame i hi h,
    fun i hi => ?_⟩
  refine ⟨i % 16, Nat.mod_lt _ (by norm_num), i / 16, by omega, ?_⟩
  unfold WLEDStreamer.rgb_to_wled_index MATRIX_WIDTH
  omega

/-- Witness for C7's amended theorem: the unwritten-index conjunct applied at
the misconfigured constant mapper and device index 5. -/
theorem c7_payload_entries_witness :
    (build_leds constZeroIdx redFrame).getD 5 none = none :=
  (c7_payload_entries redFrame).2.1 constZeroIdx 5 (by norm_num)
    (fun x _ y _ => by simp [constZeroIdx])

lemma castAux_succ (m : List (List ℕ)) (px py dx dy : ℝ) (n : ℕ) (rx ry : ℝ) :
    castAux m px py dx dy (n + 1) rx ry =
      if 0 ≤ pytrunc (ry + dy) ∧ pytrunc (ry + dy) < (m.length : ℤ) ∧
         0 ≤ pytrunc (rx + dx) ∧ pytrunc (rx + dx) < ((m.headD []).length : ℤ) ∧
         (m.getD (pytrunc (ry + dy)).toNat []).getD (pytrunc (rx + dx)).toNat 0 = 1 then
        (Real.sqrt ((rx + dx - px) ^ 2 + (ry + dy - py) ^ 2),
         (pytrunc (rx + dx) + pytrunc (ry + dy)) % 2)
      else
        castAux m px py dx dy n (rx + dx) (ry + dy) := by
  rw [castAux]

lemma castAux_no_hit (m : List (List ℕ)) (px py dx dy : ℝ) :
    ∀ (fuel j : ℕ),
      (∀ k, j < k → k ≤ j + fuel → ¬ hitAt m px py dx dy k) →
      castAux m px py dx dy fuel (px + j * dx) (py + j * dy) = (100, 0) := by
  intro fuel
  induction fuel with
  | zero => intro j _; rfl
  | succ n ih =>
      intro j h
      rw [castAux_succ]
      have ex : px + (j : ℝ) * dx + dx = px + ((j + 1 : ℕ) : ℝ) * dx := by push_cast; ring
      have ey : py + (j : ℝ) * dy + dy = py + ((j + 1 : ℕ) : ℝ) * dy := by push_cast; ring
      have hneg := h (j + 1) (by omega) (by omega)
      unfold hitAt at hneg
      rw [ex, ey, if_neg hneg]
      exact ih (j + 1) (fun k h1 h2 => h k (by omega) (by omega))

lemma castAux_hit (m : List (List ℕ)) (px py dx dy : ℝ) :
    ∀ (fuel j k : ℕ), j < k → k ≤ j + fuel →
      hitAt m px py dx dy k →
      (∀ i, j < i → i < k → ¬ hitAt m px py dx dy i) →
      castAux m px py dx dy fuel (px + j * dx) (py + j * dy) =
        (Real.sqrt ((px + k * dx - px) ^ 2 + (py + k * dy - py) ^ 2),
         (pytrunc (px + k * dx) + pytrunc (py + k * dy)) % 2) := by
  intro fuel
  induction fuel with
  | zero => intro j k h1 h2 _ _; exact absurd h2 (by omega)
  | succ n ih =>
      intro j k h1 h2 hk hmin
      rw [castAux_succ]
      have ex : px + (j : ℝ) * dx + dx = px + ((j + 1 : ℕ) : ℝ) * dx := by push_cast; ring
      have ey : py + (j : ℝ) * dy + dy = py + ((j + 1 : ℕ) : ℝ) * dy := by push_cast; ring
      rw [ex, ey]
      by_cases hjk : k = j + 1
      · subst hjk
        have hk1 := hk
        unfold hitAt at hk1
        rw [if_pos hk1]
      · have hneg := hmin (j + 1) (by omega) (by omega)
        unfold hitAt at hneg
        rw [if_neg hneg]
        exact ih (j + 1) k (by omega) (by omega) hk
          (fun i hi1 hi2 => hmin i (by omega) hi2)

lemma cast_ray_cases (m : List (List ℕ)) (px py angle : ℝ) :
    (∃ k, 1 ≤ k ∧ k ≤ 200 ∧
        hitAt m px py (Real.cos angle * 0.02) (Real.sin angle * 0.02) k ∧
        (∀ i, 1 ≤ i → i < k →
          ¬ hitAt m px py (Real.cos angle * 0.02) (Real.sin angle * 0.02) i) ∧
        cast_ray m px py angle =
          (Real.sqrt ((px + k * (Real.cos angle * 0.02) - px) ^ 2 +
                      (py + k * (Real.sin angle * 0.02) - py) ^ 2),
           (pytrunc (px + k * (Real.cos angle * 0.02)) +
            pytrunc (py + k * (Real.sin angle * 0.02))) % 2)) ∨
    ((∀ k, 1 ≤ k → k ≤ 200 →
        ¬ hitAt m px py (Real.cos angle * 0.02) (Real.sin angle * 0.02) k) ∧
     cast_ray m px py angle = (100, 0)) := by
  classical
  unfold cast_ray
  set dx := Real.cos angle * 0.02 with hdx
  set dy := Real.sin angle * 0.02 with hdy
  by_cases hex : ∃ k, (1 ≤ k ∧ k ≤ 200) ∧ hitAt m px py dx dy k
  · left
    have hk0 := Nat.find_spec hex
    set k0 := Nat.find hex with hk0def
    have hmin : ∀ i, 1 ≤ i → i < k0 → ¬ hitAt m px py dx dy i := by
      intro i h1 h2 hbad
      exact Nat.find_min hex h2 ⟨⟨h1, by omega⟩, hbad⟩
    refine ⟨k0, hk0.1.1, hk0.1.2, hk0.2, hmin, ?_⟩
    have h := castAux_hit m px py dx dy 200 0 k0 (by omega) (by omega) hk0.2
      (fun i hi1 hi2 => hmin i (by omega) hi2)
    simpa using h
  · right
    refine ⟨fun k h1 h2 hbad => hex ⟨k, ⟨h1, h2⟩, hbad⟩, ?_⟩
    have h := castAux_no_hit m px py dx dy 200 0
      (fun k h1 h2 => fun hbad => hex ⟨k, ⟨by omega, by omega⟩, hbad⟩)
    simpa using h

lemma hit_dist_eq (px py angle : ℝ) (k : ℕ) :
    Real.sqrt ((px + k * (Real.cos angle * 0.02) - px) ^ 2 +
               (py + k * (Real.sin angle * 0.02) - py) ^ 2) = 0.02 * k := by
  have hs := Real.sin_sq_add_cos_sq angle
  have h : (px + k * (Real.cos angle * 0.02) - px) ^ 2 +
           (py + k * (Real.sin angle * 0.02) - py) ^ 2 = (0.02 * (k : ℝ)) ^ 2 := by
    linear_combination ((0.0004 : ℝ) * (k : ℝ) ^ 2) * hs
  rw [h, Real.sqrt_sq (by positivity)]

lemma step_magnitude (angle : ℝ) :
    Real.sqrt ((Real.cos angle * 0.02) ^ 2 + (Real.sin angle * 0.02) ^ 2) = 0.02 := by
  have hs := Real.sin_sq_add_cos_sq angle
  have h : (Real.cos angle * 0.02) ^ 2 + (Real.sin angle * 0.02) ^ 2 = (0.02 : ℝ) ^ 2 := by
    linear_combination (0.0004 : ℝ) * hs
  rw [h, Real.sqrt_sq (by norm_num)]

/-- C1: `cast_ray` marches the step vector of magnitude 0.02 along
(cos angle, sin angle) for at most 200 steps; the first step landing in an
in-bounds wall cell returns the Euclidean distance from the origin to the
current sub-cell position together with `(cell_x + cell_y) % 2`; if all 200
steps pass without such a hit (including marching out of bounds) the result
is the sentinel `(100, 0)` — the function is total, never an error. -/
theorem c1_cast_ray_march (m : List (List ℕ)) (px py angle : ℝ) :
    Real.sqrt ((Real.cos angle * 0.02) ^ 2 + (Real.sin angle * 0.02) ^ 2) = 0.02 ∧
    ((∃ k, 1 ≤ k ∧ k ≤ 200 ∧
        hitAt m px py (Real.cos angle * 0.02) (Real.sin angle * 0.02) k ∧
        (∀ i, 1 ≤ i → i < k →
          ¬ hitAt m px py (Real.cos angle * 0.02) (Real.sin angle * 0.02) i) ∧
        cast_ray m px py angle =
          (Real.sqrt ((px + k * (Real.cos angle * 0.02) - px) ^ 2 +
                      (py + k * (Real.sin angle * 0.02) - py) ^ 2),
           (pytrunc (px + k * (Real.cos angle * 0.02)) +
            pytrunc (py + k * (Real.sin angle * 0.02))) % 2)) ∨
     ((∀ k, 1 ≤ k → k ≤ 200 →
         ¬ hitAt m px py (Real.cos angle * 0.02) (Real.sin angle * 0.02) k) ∧
      cast_ray m px py angle = (100, 0))) :=
  ⟨step_magnitude angle, cast_ray_cases m px py angle⟩

/-- C9: over exact real arithmetic `cast_ray` returns either the sentinel
(100, 0) or, on a hit after k steps (1 ≤ k ≤ 200), the distance exactly
0.02·k, which is positive, at most 4 and strictly below the sentinel; hence
the hit test `dist < 10` of `shoot` succeeds exactly when the ray hit. -/
theorem c9_hit_distance_exact (m : List (List ℕ)) (px py angle : ℝ) :
    (cast_ray m px py angle = (100, 0) ∨
      (∃ k : ℕ, 1 ≤ k ∧ k ≤ 200 ∧ (cast_ray m px py angle).1 = 0.02 * (k : ℝ) ∧
        0 < (cast_ray m px py angle).1 ∧ (cast_ray m px py angle).1 ≤ 4 ∧
        (cast_ray m px py angle).1 < 100)) ∧
    ((cast_ray m px py angle).1 < 10 ↔ cast_ray m px py angle ≠ (100, 0)) := by
  rcases cast_ray_cases m px py angle with ⟨k, h1, h2, _, _, heq⟩ | ⟨_, heq⟩
  · have hk1 : (1 : ℝ) ≤ (k : ℝ) := by exact_mod_cast h1
    have hk2 : (k : ℝ) ≤ 200 := by exact_mod_cast h2
    have hfst : (cast_ray m px py angle).1 = 0.02 * k := by
      rw [heq]
      exact hit_dist_eq px py angle k
    have hb1 : 0 < (cast_ray m px py angle).1 := by rw [hfst]; nlinarith
    have hb2 : (cast_ray m px py angle).1 ≤ 4 := by rw [hfst]; nlinarith
    have hb3 : (cast_ray m px py angle).1 < 100 := by nlinarith
    refine ⟨Or.inr ⟨k, h1, h2, hfst, hb1, hb2, hb3⟩, ?_, ?_⟩
    · intro _ hc
      rw [hc] at hfst
      norm_num at hfst
      nlinarith
    · intro _
      nlinarith
  · rw [heq]
    norm_num

/-- C8: for the center screen column i = GAME_WIDTH / 2 = 160, the ray
angle `player_angle - fov/2 + (i / GAME_WIDTH) * fov` equals the player
heading exactly, the fisheye factor `cos(ray_angle - player_angle)` is 1,
and the corrected distance equals the raw distance unchanged. -/
theorem c8_center_column_identity (pa dist : ℝ) :
    GAME_WIDTH / 2 = 160 ∧
    ray_angle pa 160 = pa ∧
    Real.cos (ray_angle pa 160 - pa) = 1 ∧
    fisheye_corrected pa (ray_angle pa 160) dist = dist := by
  have h1 : ray_angle pa 160 = pa := by
    unfold ray_angle fov GAME_WIDTH
    push_cast
    ring
  refine ⟨by norm_num [GAME_WIDTH], h1, ?_, ?_⟩
  · rw [h1, sub_self, Real.cos_zero]
  · unfold fisheye_corrected
    rw [h1, sub_self, Real.cos_zero, mul_one]

lemma tryMove_some {m : List (List ℕ)} {s t : GameState} {nx ny : ℝ}
    (h : tryMove m s nx ny = some t) :
    (t = { s with player_x := nx, player_y := ny } ∧
      mapCell m (pytrunc ny) (pytrunc nx) = some 0) ∨ t = s := by
  unfold tryMove at h
  cases hm : mapCell m (pytrunc ny) (pytrunc nx) with
  | none => rw [hm] at h; cases h
  | some v =>
      rw [hm] at h
      injection h with h
      by_cases hv : v = 0
      · subst hv
        left
        rw [← h, if_pos rfl]
        exact ⟨rfl, rfl⟩
      · right
        rw [← h, if_neg hv]

lemma tryMove_fields {m : List (List ℕ)} {s t : GameState} {nx ny : ℝ}
    (h : tryMove m s nx ny = some t) :
    t.bullet_impacts = s.bullet_impacts ∧ t.shot_cooldown = s.shot_cooldown ∧
    t.muzzle_flash_timer = s.muzzle_flash_timer ∧ t.shooting = s.shooting ∧
    t.player_angle = s.player_angle := by
  rcases tryMove_some h with ⟨rfl, -⟩ | rfl
  · exact ⟨rfl, rfl, rfl, rfl, rfl⟩
  · exact ⟨rfl, rfl, rfl, rfl, rfl⟩

lemma stage_fields {m : List (List ℕ)} {b : Bool} {s t : GameState} {nx ny : ℝ}
    (h : (if b then tryMove m s nx ny else some s) = some t) :
    t.bullet_impacts = s.bullet_impacts ∧ t.shot_cooldown = s.shot_cooldown ∧
    t.muzzle_flash_timer = s.muzzle_flash_timer ∧ t.shooting = s.shooting ∧
    t.player_angle = s.player_angle := by
  cases b with
  | false =>
      simp only [Bool.false_eq_true, if_false, Option.some_inj] at h
      subst h
      exact ⟨rfl, rfl, rfl, rfl, rfl⟩
  | true =>
      simp only [if_true] at h
      exact tryMove_fields h

lemma stage_empty_cell {m : List (List ℕ)} {b : Bool} {s t : GameState} {nx ny : ℝ}
    (h : (if b then tryMove m s nx ny else some s) = some t)
    (hs : InEmptyCell m s) : InEmptyCell m t := by
  cases b with
  | false =>
      simp only [Bool.false_eq_true, if_false, Option.some_inj] at h
      subst h
      exact hs
  | true =>
      simp only [if_true] at h
      rcases tryMove_some h with ⟨rfl, hcell⟩ | rfl
      · exact hcell
      · exact hs

lemma shoot_timers (m : List (List ℕ)) (s : GameState) :
    (shoot m s).shot_cooldown = 10 ∧ (shoot m s).muzzle_flash_timer = 5 ∧
    (shoot m s).shooting = true ∧
    (shoot m s).player_x = s.player_x ∧ (shoot m s).player_y = s.player_y ∧
    (shoot m s).player_angle = s.player_angle := by
  unfold shoot
  dsimp only
  split
  · exact ⟨rfl, rfl, rfl, rfl, rfl, rfl⟩
  · exact ⟨rfl, rfl, rfl, rfl, rfl, rfl⟩

lemma shoot_impacts_hit {m : List (List ℕ)} {s : GameState}
    (h : (cast_ray m s.player_x s.player_y s.player_angle).1 < 10) :
    (shoot m s).bullet_impacts = s.bullet_impacts ++ [(((GAME_WIDTH : ℤ) / 2), 10)] := by
  unfold shoot
  dsimp only
  rw [if_pos h]

lemma shoot_impacts_miss {m : List (List ℕ)} {s : GameState}
    (h : ¬ (cast_ray m s.player_x s.player_y s.player_angle).1 < 10) :
    (shoot m s).bullet_impacts = s.bullet_impacts := by
  unfold shoot
  dsimp only
  rw [if_neg h]

lemma shoot_impacts_cases (m : List (List ℕ)) (s : GameState) :
    (shoot m s).bullet_impacts = s.bullet_impacts ∨
    (shoot m s).bullet_impacts = s.bullet_impacts ++ [(((GAME_WIDTH : ℤ) / 2), 10)] := by
  by_cases h : (cast_ray m s.player_x s.player_y s.player_angle).1 < 10
  · exact Or.inr (shoot_impacts_hit h)
  · exact Or.inl (shoot_impacts_miss h)

lemma update_timers_impacts (s : GameState) :
    (update_timers s).bullet_impacts =
      (s.bullet_impacts.map (fun p => if p.2 > 0 then (p.1, p.2 - 1) else p)).filter
        (fun p => p.2 > 0) := by
  unfold update_timers
  dsimp only
  split <;> split <;> rfl

lemma update_timers_fields (s : GameState) :
    (update_timers s).player_x = s.player_x ∧ (update_timers s).player_y = s.player_y ∧
    (update_timers s).player_angle = s.player_angle ∧
    (update_timers s).shooting = s.shooting ∧
    (update_timers s).shot_cooldown =
      (if s.shot_cooldown > 0 then s.shot_cooldown - 1 else s.shot_cooldown) ∧
    (update_timers s).muzzle_flash_timer =
      (if s.muzzle_flash_timer > 0 then s.muzzle_flash_timer - 1 else s.muzzle_flash_timer) := by
  unfold update_timers
  dsimp only
  split <;> split <;> exact ⟨rfl, rfl, rfl, rfl, rfl, rfl⟩

lemma rot_state_fields (b c : Bool) (s : GameState) :
    (if c then
        { (if b then { s with player_angle := s.player_angle - rot_speed } else s) with
          player_angle :=
            (if b then { s with player_angle := s.player_angle - rot_speed }
              else s).player_angle + rot_speed }
      else (if b then { s with player_angle := s.player_angle - rot_speed } else s)
      : GameState).bullet_impacts = s.bullet_impacts ∧
    (if c then
        { (if b then { s with player_angle := s.player_angle - rot_speed } else s) with
          player_angle :=
            (if b then { s with player_angle := s.player_angle - rot_speed }
              else s).player_angle + rot_speed }
      else (if b then { s with player_angle := s.player_angle - rot_speed } else s)
      : GameState).shot_cooldown = s.shot_cooldown ∧
    (if c then
        { (if b then { s with player_angle := s.player_angle - rot_speed } else s) with
          player_angle :=
            (if b then { s with player_angle := s.player_angle - rot_speed }
              else s).player_angle + rot_speed }
      else (if b then { s with player_angle := s.player_angle - rot_speed } else s)
      : GameState).muzzle_flash_timer = s.muzzle_flash_timer ∧
    (if c then
        { (if b then { s with player_angle := s.player_angle - rot_speed } else s) with
          player_angle :=
            (if b then { s with player_angle := s.player_angle - rot_speed }
              else s).player_angle + rot_speed }
      else (if b then { s with player_angle := s.player_angle - rot_speed } else s)
      : GameState).shooting = s.shooting ∧
    (if c then
        { (if b then { s with player_angle := s.player_angle - rot_speed } else s) with
          player_angle :=
            (if b then { s with player_angle := s.player_angle - rot_speed }
              else s).player_angle + rot_speed }
      else (if b then { s with player_angle := s.player_angle - rot_speed } else s)
      : GameState).player_x = s.player_x ∧
    (if c then
        { (if b then { s with player_angle := s.player_angle - rot_speed } else s) with
          player_angle :=
            (if b then { s with player_angle := s.player_angle - rot_speed }
              else s).player_angle + rot_speed }
      else (if b then { s with player_angle := s.player_angle - rot_speed } else s)
      : GameState).player_y = s.player_y := by
  cases b <;> cases c <;> exact ⟨rfl, rfl, rfl, rfl, rfl, rfl⟩

lemma handle_input_decomp {m : List (List ℕ)} {k : Keys} {s s' : GameState}
    (h : handle_input m k s = some s') :
    ∃ t : GameState,
      t.bullet_impacts = s.bullet_impacts ∧ t.shot_cooldown = s.shot_cooldown ∧
      t.muzzle_flash_timer = s.muzzle_flash_timer ∧ t.shooting = s.shooting ∧
      (InEmptyCell m s → InEmptyCell m t) ∧
      s' = (if k.space ∧ t.shot_cooldown = 0 then shoot m t else t) := by
  unfold handle_input at h
  rcases Option.bind_eq_some.mp h with ⟨s3, h3, h⟩
  rcases Option.bind_eq_some.mp h with ⟨s4, h4, h⟩
  rcases Option.bind_eq_some.mp h with ⟨s5, h5, h⟩
  rcases Option.bind_eq_some.mp h with ⟨s6, h6, h⟩
  injection h with h
  obtain ⟨r1, r2, r3, r4, r5, r6⟩ := rot_state_fields k.left k.right s
  obtain ⟨f3a, f3b, f3c, f3d, _⟩ := stage_fields h3
  obtain ⟨f4a, f4b, f4c, f4d, _⟩ := stage_fields h4
  obtain ⟨f5a, f5b, f5c, f5d, _⟩ := stage_fields h5
  obtain ⟨f6a, f6b, f6c, f6d, _⟩ := stage_fields h6
  refine ⟨s6, ?_, ?_, ?_, ?_, ?_, h.symm⟩
  · rw [f6a, f5a, f4a, f3a, r1]
  · rw [f6b, f5b, f4b, f3b, r2]
  · rw [f6c, f5c, f4c, f3c, r3]
  · rw [f6d, f5d, f4d, f3d, r4]
  · intro hs
    have h2 : InEmptyCell m
        (if k.right then
            { (if k.left then { s with player_angle := s.player_angle - rot_speed } else s) with
              player_angle :=
                (if k.left then { s with player_angle := s.player_angle - rot_speed }
                  else s).player_angle + rot_speed }
          else (if k.left then { s with player_angle := s.player_angle - rot_speed } else s)) := by
      unfold InEmptyCell
      rw [r5, r6]
      exact hs
    exact stage_empty_cell h6 (stage_empty_cell h5 (stage_empty_cell h4
      (stage_empty_cell h3 h2)))

lemma shoot_empty_cell {m m2 : List (List ℕ)} {s : GameState}
    (h : InEmptyCell m2 s) : InEmptyCell m2 (shoot m s) := by
  obtain ⟨-, -, -, hx, hy, -⟩ := shoot_timers m s
  unfold InEmptyCell
  rw [hx, hy]
  exact h

lemma handle_input_empty_cell {m : List (List ℕ)} {k : Keys} {s s' : GameState}
    (h : handle_input m k s = some s') (hs : InEmptyCell m s) : InEmptyCell m s' := by
  obtain ⟨t, -, -, -, -, hcell, hs'⟩ := handle_input_decomp h
  rw [hs']
  by_cases hc : k.space = true ∧ t.shot_cooldown = 0
  · rw [if_pos hc]
    exact shoot_empty_cell (hcell hs)
  · rw [if_neg hc]
    exact hcell hs

lemma impOK_shoot {m : List (List ℕ)} {s : GameState} (h : ImpOK s) :
    ImpOK (shoot m s) := by
  intro p hp
  rcases shoot_impacts_cases m s with hc | hc <;> rw [hc] at hp
  · exact h p hp
  · rcases List.mem_append.mp hp with hmem | hmem
    · exact h p hmem
    · rw [List.mem_singleton] at hmem
      subst hmem
      exact ⟨by norm_num, by norm_num⟩

lemma impOK_update_timers {s : GameState} (h : ImpOK s) : ImpOK (update_timers s) := by
  intro p hp
  rw [update_timers_impacts, List.mem_filter] at hp
  obtain ⟨hp1, hp2⟩ := hp
  have hp2' : 0 < p.2 := by simpa using hp2
  rw [List.mem_map] at hp1
  obtain ⟨q, hq, hpq⟩ := hp1
  have hq' := h q hq
  by_cases hq2 : q.2 > 0
  · rw [if_pos hq2] at hpq
    rw [← hpq]
    constructor
    · rw [← hpq] at hp2'
      dsimp at hp2' ⊢
      omega
    · dsimp
      omega
  · rw [if_neg hq2] at hpq
    rw [← hpq]
    omega

lemma handle_input_impOK {m : List (List ℕ)} {k : Keys} {s s' : GameState}
    (h : handle_input m k s = some s') (hs : ImpOK s) : ImpOK s' := by
  obtain ⟨t, ht1, -, -, -, -, hs'⟩ := handle_input_decomp h
  have htOK : ImpOK t := by
    intro p hp
    rw [ht1] at hp
    exact hs p hp
  rw [hs']
  by_cases hc : k.space = true ∧ t.shot_cooldown = 0
  · rw [if_pos hc]
    exact impOK_shoot htOK
  · rw [if_neg hc]
    exact htOK

lemma reach_impOK : ∀ s : GameState, Reach s → ImpOK s := by
  intro s h
  induction h with
  | init =>
      intro p hp
      simp only [initState] at hp
      cases hp
  | input k hr heq ih => exact handle_input_impOK heq ih
  | timers hr ih => exact impOK_update_timers ih

/-- C10: bullet impact lifetimes stay in [1, 10]: `shoot` only appends
entries with lifetime 10; `update_timers` decrements each positive lifetime
by one and then removes every entry whose lifetime is not strictly
positive; hence in every reachable state each impact has lifetime in
[1, 10] and the render-time guard `timer > 0` always holds. -/
theorem c10_impact_lifetimes (m : List (List ℕ)) (s : GameState) :
    ((shoot m s).bullet_impacts = s.bullet_impacts ∨
      (shoot m s).bullet_impacts = s.bullet_impacts ++ [(((GAME_WIDTH : ℤ) / 2), 10)]) ∧
    ((update_timers s).bullet_impacts =
      (s.bullet_impacts.map (fun p => if p.2 > 0 then (p.1, p.2 - 1) else p)).filter
        (fun p => p.2 > 0)) ∧
    (ImpOK s → ImpOK (shoot m s)) ∧
    (ImpOK s → ImpOK (update_timers s)) ∧
    (∀ (k : Keys) (s' : GameState), ImpOK s → handle_input m k s = some s' → ImpOK s') ∧
    (Reach s → ImpOK s) ∧
    (Reach s → ∀ p ∈ s.bullet_impacts, 0 < p.2) := by
  refine ⟨shoot_impacts_cases m s, update_timers_impacts s,
    fun h => impOK_shoot h, fun h => impOK_update_timers h,
    fun k s' h heq => handle_input_impOK heq h,
    fun h => reach_impOK s h,
    fun h p hp => ?_⟩
  have := reach_impOK s h p hp
  omega

/-- Witness for C10: the reachable-state conjunct applied at the initial
state, whose impact list is empty. -/
theorem c10_impact_lifetimes_witness : ImpOK initState :=
  (c10_impact_lifetimes gameMap initState).2.2.2.2.2.1 Reach.init

lemma pytrunc_nonneg_eq (r : ℝ) (z : ℤ) (h0 : 0 ≤ r) (h1 : (z : ℝ) ≤ r)
    (h2 : r < z + 1) : pytrunc r = z := by
  unfold pytrunc
  rw [if_pos h0]
  exact Int.floor_eq_iff.mpr ⟨h1, by exact_mod_cast h2⟩

lemma reach_empty_cell : ∀ s : GameState, Reach s → InEmptyCell gameMap s := by
  intro s h
  induction h with
  | init =>
      have h35 : pytrunc (3.5 : ℝ) = 3 := by
        apply pytrunc_nonneg_eq <;> norm_num
      unfold InEmptyCell initState
      dsimp only
      rw [h35]
      decide
  | input k hr heq ih => exact handle_input_empty_cell heq ih
  | timers hr ih =>
      obtain ⟨hx, hy, -⟩ := update_timers_fields _
      unfold InEmptyCell
      rw [hx, hy]
      exact ih

/-- C3: a proposed move or strafe whose destination truncates to a WALL
cell leaves the player position bit-for-bit unchanged — `handle_input`
commits the move exactly when the destination cell value is 0 — and from
the initial position (3.5, 3.5) every reachable state keeps the player in
an EMPTY (value 0) cell, never in a WALL cell. -/
theorem c3_wall_rejection_and_safety :
    (∀ (m : List (List ℕ)) (s : GameState) (v : ℕ),
      mapCell m (pytrunc (s.player_y + Real.sin s.player_angle * move_speed))
        (pytrunc (s.player_x + Real.cos s.player_angle * move_speed)) = some v →
      handle_input m upOnly s =
        some (if v = 0 then
          { s with player_x := s.player_x + Real.cos s.player_angle * move_speed,
                   player_y := s.player_y + Real.sin s.player_angle * move_speed }
          else s)) ∧
    (∀ (m : List (List ℕ)) (s : GameState) (v : ℕ),
      mapCell m (pytrunc (s.player_y - Real.sin s.player_angle * move_speed))
        (pytrunc (s.player_x - Real.cos s.player_angle * move_speed)) = some v →
      handle_input m downOnly s =
        some (if v = 0 then
          { s with player_x := s.player_x - Real.cos s.player_angle * move_speed,
                   player_y := s.player_y - Real.sin s.player_angle * move_speed }
          else s)) ∧
    (∀ (m : List (List ℕ)) (s : GameState) (v : ℕ),
      mapCell m
        (pytrunc (s.player_y + Real.sin (s.player_angle - Real.pi / 2) * move_speed))
        (pytrunc (s.player_x + Real.cos (s.player_angle - Real.pi / 2) * move_speed)) =
          some v →
      handle_input m strafeLeftOnly s =
        some (if v = 0 then
          { s with
            player_x := s.player_x + Real.cos (s.player_angle - Real.pi / 2) * move_speed,
            player_y := s.player_y + Real.sin (s.player_angle - Real.pi / 2) * move_speed }
          else s)) ∧
    (∀ (m : List (List ℕ)) (s : GameState) (v : ℕ),
      mapCell m
        (pytrunc (s.player_y + Real.sin (s.player_angle + Real.pi / 2) * move_speed))
        (pytrunc (s.player_x + Real.cos (s.player_angle + Real.pi / 2) * move_speed)) =
          some v →
      handle_input m strafeRightOnly s =
        some (if v = 0 then
          { s with
            player_x := s.player_x + Real.cos (s.player_angle + Real.pi / 2) * move_speed,
            player_y := s.player_y + Real.sin (s.player_angle + Real.pi / 2) * move_speed }
          else s)) ∧
    (∀ s : GameState, Reach s → InEmptyCell gameMap s) ∧
    (∀ s : GameState, Reach s →
      mapCell gameMap (pytrunc s.player_y) (pytrunc s.player_x) ≠ some 1) := by
  refine ⟨?_, ?_, ?_, ?_, reach_empty_cell, ?_⟩
  · intro m s v h
    simp [handle_input, upOnly, noKeys, tryMove, h]
  · intro m s v h
    simp [handle_input, downOnly, noKeys, tryMove, h]
  · intro m s v h
    simp [handle_input, strafeLeftOnly, noKeys, tryMove, h]
  · intro m s v h
    simp [handle_input, strafeRightOnly, noKeys, tryMove, h]
  · intro s h
    have hcell := reach_empty_cell s h
    unfold InEmptyCell at hcell
    rw [hcell]
    simp

/-- Witness for C3: a forward move from (6.97, 1.5) heading 0 proposes cell
(7, 1), a WALL, and the position is rejected unchanged; the reachability
conjunct applied at the initial state. -/
theorem c3_wall_rejection_and_safety_witness :
    handle_input gameMap upOnly
        ⟨6.97, 1.5, 0, false, 0, 0, []⟩ = some ⟨6.97, 1.5, 0, false, 0, 0, []⟩ ∧
    InEmptyCell gameMap initState := by
  constructor
  · have e1 : pytrunc ((1.5 : ℝ) + Real.sin 0 * move_speed) = 1 := by
      rw [Real.sin_zero]
      apply pytrunc_nonneg_eq <;> norm_num [move_speed]
    have e2 : pytrunc ((6.97 : ℝ) + Real.cos 0 * move_speed) = 7 := by
      rw [Real.cos_zero]
      apply pytrunc_nonneg_eq <;> norm_num [move_speed]
    have hcell : mapCell gameMap
        (pytrunc ((⟨6.97, 1.5, 0, false, 0, 0, []⟩ : GameState).player_y +
          Real.sin (⟨6.97, 1.5, 0, false, 0, 0, []⟩ : GameState).player_angle * move_speed))
        (pytrunc ((⟨6.97, 1.5, 0, false, 0, 0, []⟩ : GameState).player_x +
          Real.cos (⟨6.97, 1.5, 0, false, 0, 0, []⟩ : GameState).player_angle * move_speed)) =
        some 1 := by
      show mapCell gameMap (pytrunc ((1.5 : ℝ) + Real.sin 0 * move_speed))
        (pytrunc ((6.97 : ℝ) + Real.cos 0 * move_speed)) = some 1
      rw [e1, e2]
      decide
    have h := c3_wall_rejection_and_safety.1 gameMap ⟨6.97, 1.5, 0, false, 0, 0, []⟩ 1 hcell
    rw [h, if_neg (by norm_num)]
  · exact c3_wall_rejection_and_safety.2.2.2.2.1 initState Reach.init

lemma handle_input_fire_ready {m : List (List ℕ)} {s : GameState}
    (hc : s.shot_cooldown = 0) :
    handle_input m fireOnly s = some (shoot m s) := by
  simp [handle_input, fireOnly, noKeys, hc]

lemma handle_input_fire_blocked {m : List (List ℕ)} {s : GameState}
    (hc : s.shot_cooldown ≠ 0) :
    handle_input m fireOnly s = some s := by
  simp [handle_input, fireOnly, noKeys, hc]

/-- C6: a fire request is honored only with zero cooldown; a successful
fire sets cooldown 10 and muzzle flash 5 and appends exactly one impact
`[GAME_WIDTH // 2, 10]` iff the cast distance is below 10; a fire request
with nonzero cooldown changes nothing, so two fire requests within one
cooldown window yield exactly one impact and one cooldown reset. -/
theorem c6_fire_cooldown_gating (m : List (List ℕ)) (s : GameState) :
    ((shoot m s).shot_cooldown = 10 ∧ (shoot m s).muzzle_flash_timer = 5) ∧
    ((cast_ray m s.player_x s.player_y s.player_angle).1 < 10 →
      (shoot m s).bullet_impacts = s.bullet_impacts ++ [(((GAME_WIDTH : ℤ) / 2), 10)]) ∧
    (¬ (cast_ray m s.player_x s.player_y s.player_angle).1 < 10 →
      (shoot m s).bullet_impacts = s.bullet_impacts) ∧
    (s.shot_cooldown = 0 → handle_input m fireOnly s = some (shoot m s)) ∧
    (s.shot_cooldown ≠ 0 → handle_input m fireOnly s = some s) ∧
    (s.shot_cooldown = 0 → s.bullet_impacts = [] →
      (cast_ray m s.player_x s.player_y s.player_angle).1 < 10 →
      (tick m fireOnly s).bind (tick m fireOnly) =
        some (update_timers (update_timers (shoot m s))) ∧
      (update_timers (update_timers (shoot m s))).bullet_impacts =
        [(((GAME_WIDTH : ℤ) / 2), 8)] ∧
      (update_timers (update_timers (shoot m s))).shot_cooldown = 8 ∧
      (update_timers (update_timers (shoot m s))).muzzle_flash_timer = 3) := by
  obtain ⟨hSc, hSf, -, -, -, -⟩ := shoot_timers m s
  refine ⟨⟨hSc, hSf⟩, fun h => shoot_impacts_hit h, fun h => shoot_impacts_miss h,
    fun hc => handle_input_fire_ready hc, fun hc => handle_input_fire_blocked hc,
    fun hc himp hdist => ?_⟩
  obtain ⟨-, -, -, -, hu1c, hu1f⟩ := update_timers_fields (shoot m s)
  rw [hSc] at hu1c
  rw [hSf] at hu1f
  norm_num at hu1c hu1f
  have hSi : (shoot m s).bullet_impacts = [(((GAME_WIDTH : ℤ) / 2), 10)] := by
    rw [shoot_impacts_hit hdist, himp, List.nil_append]
  have hu1i : (update_timers (shoot m s)).bullet_impacts =
      [(((GAME_WIDTH : ℤ) / 2), 9)] := by
    rw [update_timers_impacts, hSi]
    norm_num
  obtain ⟨-, -, -, -, hu2c, hu2f⟩ := update_timers_fields (update_timers (shoot m s))
  rw [hu1c] at hu2c
  rw [hu1f] at hu2f
  norm_num at hu2c hu2f
  have hu2i : (update_timers (update_timers (shoot m s))).bullet_impacts =
      [(((GAME_WIDTH : ℤ) / 2), 8)] := by
    rw [update_timers_impacts, hu1i]
    norm_num
  have htick1 : tick m fireOnly s = some (update_timers (shoot m s)) := by
    unfold tick
    rw [handle_input_fire_ready hc]
    rfl
  have htick2 : tick m fireOnly (update_timers (shoot m s)) =
      some (update_timers (update_timers (shoot m s))) := by
    unfold tick
    rw [handle_input_fire_blocked (by rw [hu1c]; norm_num)]
    rfl
  refine ⟨?_, hu2i, hu2c, hu2f⟩
  rw [htick1, Option.some_bind, htick2]

/-- Witness for C6: applied at the one-cell wall map `[[1]]` and the state
(0.5, 0.5, heading 0) with zero cooldown and no impacts; the center ray
hits at the first step, distance 0.02. -/
theorem c6_fire_cooldown_gating_witness :
    (shoot [[1]] ⟨0.5, 0.5, 0, false, 0, 0, []⟩).shot_cooldown = 10 ∧
    (shoot [[1]] ⟨0.5, 0.5, 0, false, 0, 0, []⟩).bullet_impacts =
      [(((GAME_WIDTH : ℤ) / 2), 10)] ∧
    handle_input [[1]] fireOnly ⟨0.5, 0.5, 0, false, 0, 0, []⟩ =
      some (shoot [[1]] ⟨0.5, 0.5, 0, false, 0, 0, []⟩) := by
  have hdist : (cast_ray [[1]] 0.5 0.5 0).1 < 10 := by
    have hit1 : hitAt [[1]] 0.5 0.5 (Real.cos 0 * 0.02) (Real.sin 0 * 0.02) 1 := by
      have e1 : pytrunc ((0.5 : ℝ) + ((1 : ℕ) : ℝ) * (Real.sin 0 * 0.02)) = 0 := by
        rw [Real.sin_zero]
        apply pytrunc_nonneg_eq <;> norm_num
      have e2 : pytrunc ((0.5 : ℝ) + ((1 : ℕ) : ℝ) * (Real.cos 0 * 0.02)) = 0 := by
        rw [Real.cos_zero]
        apply pytrunc_nonneg_eq <;> norm_num
      unfold hitAt
      rw [e1, e2]
      refine ⟨by norm_num, by norm_num, by norm_num, by norm_num, by norm_num⟩
    rcases cast_ray_cases [[1]] 0.5 0.5 0 with ⟨k, h1, h2, hk, hmin, heq⟩ | ⟨hno, heq⟩
    · have hk2 : (k : ℝ) ≤ 200 := by exact_mod_cast h2
      rw [heq]
      dsimp only
      rw [hit_dist_eq]
      nlinarith
    · exact absurd hit1 (hno 1 (by norm_num) (by norm_num))
  have h := c6_fire_cooldown_gating [[1]] ⟨0.5, 0.5, 0, false, 0, 0, []⟩
  refine ⟨h.1.1, ?_, h.2.2.2.1 rfl⟩
  rw [h.2.1 hdist]
  rfl

end DoomWled
